import Mathlib

/-!
Verification of the PitchPerfect-AI scraping engine against its design
specification.  The definitions below are a shallow embedding of the
Python sources:

* src/src/utils/rate_limiter.py   (RateLimitConfig, RateLimiter)
* src/src/scraper/gmaps_scraper.py (GoogleMapsScraper._scroll_and_load,
  GoogleMapsScraper._extract_all_listings)
* src/server.py                   (active_jobs registry, run_scraping_job,
  update_progress_with_lead, cancel_scraping_job)
* src/src/utils/proxy_rotation.py (ProxyRotator)

Python floats are modelled as rationals, timestamps are rationals, and
the randomness of jitter / sampling is made an explicit parameter.
-/

namespace PitchPerfect

/-! ### Rate limiter (src/src/utils/rate_limiter.py)

`RateLimitConfig` keeps the fields the claims mention; `burst_size` and
the `jitter` switch are omitted (`burst_size` is never read by the
limiter, and jitter is modelled by the explicit `jit` argument below). -/

structure RateLimitConfig where
  requestsPerPeriod : Nat
  periodSeconds : ℚ
  backoffFactor : ℚ
  maxBackoff : ℚ
deriving DecidableEq

structure LimiterState where
  requestTimes : List ℚ
  lastRequestTime : ℚ
  consecutiveFailures : Nat
deriving DecidableEq

/-- The purge loop at the top of `RateLimiter.can_make_request`:
`while self.request_times and self.request_times[0] < cutoff: popleft()`.
The deque is popped from the front while the front is older than
`now - period_seconds`, which is exactly `dropWhile`. -/
def purgeOld (period now : ℚ) (times : List ℚ) : List ℚ :=
  times.dropWhile (fun t => decide (t < now - period))

/-- Embedding of `RateLimiter.can_make_request`: purge, then compare the remaining
window count with the quota.  Returns the mutated deque together with
the boolean answer. -/
def canMakeRequest (cfg : RateLimitConfig) (times : List ℚ) (now : ℚ) :
    List ℚ × Bool :=
  let purged := purgeOld cfg.periodSeconds now times
  (purged, decide (purged.length < cfg.requestsPerPeriod))

/-- The exponential-backoff term of `RateLimiter.get_delay`:
`min(backoff_factor ** consecutive_failures, max_backoff)`. -/
def backoffDelay (cfg : RateLimitConfig) (failures : Nat) : ℚ :=
  min (cfg.backoffFactor ^ failures) cfg.maxBackoff

/-- Embedding of `RateLimiter.get_delay`.  `jit` is the value drawn by
`random.uniform(0, delay * 0.1)`; the theorems constrain it to that
range.  The source indexes `self.request_times[0]` after a failed
capacity check; when the purged window is empty that raises `IndexError`
(only reachable with `requests_per_period = 0`), modelled as `none`. -/
def getDelay (cfg : RateLimitConfig) (times : List ℚ) (failures : Nat)
    (now jit : ℚ) : Option ℚ :=
  match canMakeRequest cfg times now with
  | (_, true) => some 0
  | (purged, false) =>
    match purged with
    | [] => none
    | oldest :: _ =>
      let delay0 := oldest + cfg.periodSeconds - now
      let delay1 := if 0 < failures then max delay0 (backoffDelay cfg failures)
                    else delay0
      some (max 0 (delay1 + jit))

/-- The delay formula as claim C4 words it: the backoff term
`min(backoff_factor ** consecutive_failures, max_backoff)` is taken into
the `max` unconditionally, also when `consecutive_failures = 0`.
This definition follows the claim, not the source, and is compared
against `getDelay`. -/
def getDelayClaimed (cfg : RateLimitConfig) (times : List ℚ) (failures : Nat)
    (now jit : ℚ) : Option ℚ :=
  match canMakeRequest cfg times now with
  | (_, true) => some 0
  | (purged, false) =>
    match purged with
    | [] => none
    | oldest :: _ =>
      some (max (oldest + cfg.periodSeconds - now) (backoffDelay cfg failures) + jit)

/-- Embedding of `RateLimiter.record_request`: append the current time, remember it,
and reset or bump the failure counter. -/
def recordRequest (st : LimiterState) (now : ℚ) (success : Bool) : LimiterState :=
  { requestTimes := st.requestTimes ++ [now]
    lastRequestTime := now
    consecutiveFailures := if success then 0 else st.consecutiveFailures + 1 }

/-- On a list that is sorted strictly increasing (the RateWindow
invariant), dropping the old prefix is the same as filtering out every
old element. -/
lemma purgeOld_eq_filter (period now : ℚ) :
    ∀ (times : List ℚ), times.Pairwise (· < ·) →
      purgeOld period now times =
        times.filter (fun t => decide (now - period ≤ t)) := by
  intro times
  induction times with
  | nil => intro _; rfl
  | cons t ts ih =>
    intro hp
    rw [List.pairwise_cons] at hp
    by_cases h : t < now - period
    · have : purgeOld period now (t :: ts) = purgeOld period now ts := by
        simp [purgeOld, List.dropWhile, h]
      rw [this, ih hp.2]
      have : ¬ (now - period ≤ t) := not_le.mpr h
      simp [List.filter, this]
    · have h' : now - period ≤ t := not_lt.mp h
      have hts : ∀ u ∈ ts, now - period ≤ u := by
        intro u hu
        exact le_trans h' (le_of_lt (hp.1 u hu))
      have hfil : ts.filter (fun t => decide (now - period ≤ t)) = ts :=
        List.filter_eq_self.mpr (by intro u hu; simpa using hts u hu)
      have hd : purgeOld period now (t :: ts) = t :: ts := by
        simp [purgeOld, List.dropWhile, h]
      rw [hd, List.filter_cons_of_pos (by simpa using h'), hfil]

/-- The head surviving the purge is inside the window. -/
lemma purgeOld_head_in_window (period now : ℚ) :
    ∀ (times : List ℚ) (oldest : ℚ) (rest : List ℚ),
      purgeOld period now times = oldest :: rest → now - period ≤ oldest := by
  intro times
  induction times with
  | nil => intro o r h; simp [purgeOld] at h
  | cons t ts ih =>
    intro o r h
    by_cases hc : t < now - period
    · have : purgeOld period now (t :: ts) = purgeOld period now ts := by
        simp [purgeOld, List.dropWhile, hc]
      rw [this] at h
      exact ih o r h
    · have : purgeOld period now (t :: ts) = t :: ts := by
        simp [purgeOld, List.dropWhile, hc]
      rw [this] at h
      cases h
      exact not_lt.mp hc

/-- C3: `RateLimiter.can_make_request` first purges every timestamp older
than `now - period_seconds` and then answers true iff the number of
remaining in-window timestamps is strictly below `requests_per_period`;
in particular it answers false when the in-window count equals the quota
and true when the window is empty (for the positive quotas every
configured channel uses). -/
theorem canMakeRequest_window_semantics
    (cfg : RateLimitConfig) (times : List ℚ) (now : ℚ)
    (hsorted : times.Pairwise (· < ·)) (hquota : 0 < cfg.requestsPerPeriod) :
    (canMakeRequest cfg times now).1 =
        times.filter (fun t => decide (now - cfg.periodSeconds ≤ t)) ∧
    ((canMakeRequest cfg times now).2 = true ↔
        (canMakeRequest cfg times now).1.length < cfg.requestsPerPeriod) ∧
    ((canMakeRequest cfg times now).1.length = cfg.requestsPerPeriod →
        (canMakeRequest cfg times now).2 = false) ∧
    ((canMakeRequest cfg times now).1 = [] →
        (canMakeRequest cfg times now).2 = true) := by
  refine ⟨purgeOld_eq_filter _ _ _ hsorted, ?_, ?_, ?_⟩
  · simp [canMakeRequest]
  · intro h
    simp only [canMakeRequest] at h ⊢
    simp [h]
  · intro h
    simp only [canMakeRequest] at h ⊢
    simp [h, hquota]

/-- Witness for C3 on the "scraping"-sized window: a two-element window at
quota two denies the request, and an empty window allows it. -/
theorem canMakeRequest_window_semantics_witness :
    (canMakeRequest ⟨2, 60, 3/2, 300⟩ [30, 50] 70).2 = false ∧
    (canMakeRequest ⟨2, 60, 3/2, 300⟩ [] 70).2 = true := by
  refine ⟨?_, ?_⟩
  · exact (canMakeRequest_window_semantics ⟨2, 60, 3/2, 300⟩ [30, 50] 70
      (by norm_num [List.pairwise_cons]) (by norm_num)).2.2.1
      (by norm_num [canMakeRequest, purgeOld, List.dropWhile])
  · exact (canMakeRequest_window_semantics ⟨2, 60, 3/2, 300⟩ [] 70
      (by simp) (by norm_num)).2.2.2 (by decide)

/-- Counterexample to C4 as stated: with a full window and
`consecutive_failures = 0` the source skips the backoff term entirely
(`if self.consecutive_failures > 0`), while the claim's formula takes
`max(windowWait, min(backoff_factor ** 0, max_backoff)) = max(1/2, 1) = 1`.
At window `[1/2]`, `now = 60`, period 60, quota 1, zero jitter, the code
returns 1/2 but the claimed formula returns 1. -/
theorem getDelay_zero_failures_counterexample :
    getDelay ⟨1, 60, 3/2, 300⟩ [1/2] 0 60 0 = some (1/2) ∧
    getDelayClaimed ⟨1, 60, 3/2, 300⟩ [1/2] 0 60 0 = some 1 ∧
    (1/2 : ℚ) ≠ 1 := by
  refine ⟨?_, ?_, by norm_num⟩
  · norm_num [getDelay, canMakeRequest, purgeOld, List.dropWhile, backoffDelay,
      max_def, min_def]
  · norm_num [getDelayClaimed, canMakeRequest, purgeOld, List.dropWhile, backoffDelay,
      max_def, min_def]

/-- C4 as amended: when the window is full and `consecutive_failures > 0`,
`get_delay` returns the larger of the window-wait and the backoff
`min(backoff_factor ** failures, max_backoff)` plus a jitter of at most
10% of that delay; the backoff is capped at `max_backoff`, grows
strictly with each consecutive failure until the cap is reached, and
`record_request` resets the failure counter on success and increments it
on failure.  (When `consecutive_failures = 0` the backoff term is not
applied and the delay is the window-wait plus jitter.) -/
theorem getDelay_backoff_semantics
    (cfg : RateLimitConfig) (times : List ℚ) (failures : Nat)
    (now jit : ℚ) (oldest : ℚ) (rest : List ℚ)
    (hfull : canMakeRequest cfg times now = (oldest :: rest, false))
    (hfail : 0 < failures)
    (hjit0 : 0 ≤ jit)
    (hjit1 : jit ≤ max (oldest + cfg.periodSeconds - now) (backoffDelay cfg failures) / 10) :
    (∃ d, getDelay cfg times failures now jit = some d ∧
       max (oldest + cfg.periodSeconds - now) (backoffDelay cfg failures) ≤ d ∧
       d ≤ max (oldest + cfg.periodSeconds - now) (backoffDelay cfg failures) * (11/10)) ∧
    (∀ n : Nat, backoffDelay cfg n ≤ cfg.maxBackoff) ∧
    (1 < cfg.backoffFactor → ∀ n : Nat,
       backoffDelay cfg n ≤ backoffDelay cfg (n+1) ∧
       (backoffDelay cfg n < cfg.maxBackoff → backoffDelay cfg n < backoffDelay cfg (n+1))) ∧
    (∀ (st : LimiterState) (t : ℚ),
       (recordRequest st t true).consecutiveFailures = 0 ∧
       (recordRequest st t false).consecutiveFailures = st.consecutiveFailures + 1) := by
  have hpurge : purgeOld cfg.periodSeconds now times = oldest :: rest := by
    have := congrArg Prod.fst hfull
    simpa [canMakeRequest] using this
  have hwin : 0 ≤ oldest + cfg.periodSeconds - now := by
    have := purgeOld_head_in_window cfg.periodSeconds now times oldest rest hpurge
    linarith
  refine ⟨?_, ?_, ?_, ?_⟩
  · -- the delay formula
    set base := max (oldest + cfg.periodSeconds - now) (backoffDelay cfg failures) with hbase
    have hbase0 : 0 ≤ base := le_trans hwin (le_max_left _ _)
    have hd : getDelay cfg times failures now jit = some (max 0 (base + jit)) := by
      unfold getDelay
      rw [hfull]
      simp [hfail, hbase]
    refine ⟨max 0 (base + jit), hd, ?_, ?_⟩
    · have : base ≤ base + jit := by linarith
      exact le_trans this (le_max_right _ _)
    · have h1 : base + jit ≤ base * (11/10) := by
        have : jit ≤ base / 10 := hjit1
        linarith
      have h2 : (0 : ℚ) ≤ base * (11/10) := by positivity
      exact max_le h2 h1
  · intro n
    exact min_le_right _ _
  · intro hf n
    have hf0 : (0 : ℚ) < cfg.backoffFactor := lt_trans one_pos hf
    constructor
    · exact min_le_min (pow_le_pow_right₀ (le_of_lt hf) (Nat.le_succ n)) le_rfl
    · intro hlt
      have hpow_lt : cfg.backoffFactor ^ n < cfg.maxBackoff := by
        rcases min_lt_iff.mp hlt with h | h
        · exact h
        · exact absurd h (lt_irrefl _)
      have heq : backoffDelay cfg n = cfg.backoffFactor ^ n :=
        min_eq_left (le_of_lt hpow_lt)
      rw [heq]
      exact lt_min (pow_lt_pow_right₀ hf (Nat.lt_succ_self n)) hpow_lt
  · intro st t
    exact ⟨rfl, rfl⟩

/-- Witness for C4's amended statement: window `[30]` with quota 1 at
`now = 70`, one consecutive failure with factor 2, zero jitter — the
delay lands between the base `max(20, 2) = 20` and `22`. -/
theorem getDelay_backoff_semantics_witness :
    ∃ d, getDelay ⟨1, 60, 2, 300⟩ [30] 1 70 0 = some d ∧
      (20 : ℚ) ≤ d ∧ d ≤ 22 := by
  obtain ⟨d, hd, h1, h2⟩ := (getDelay_backoff_semantics ⟨1, 60, 2, 300⟩ [30] 1 70 0 30 []
    (by norm_num [canMakeRequest, purgeOld, List.dropWhile]) (by decide) (by decide)
    (by norm_num [backoffDelay, max_def, min_def])).1
  have hb : max ((30 : ℚ) + (60 : ℚ) - 70) (backoffDelay ⟨1, 60, 2, 300⟩ 1) = 20 := by
    norm_num [backoffDelay, max_def, min_def]
  rw [hb] at h1 h2
  exact ⟨d, hd, h1, by linarith⟩

/-! ### Scroll loop (GoogleMapsScraper._scroll_and_load)

The page is abstracted by two sequences indexed by the 0-based loop-body
number: `counts i` is the rendered item count measured in body `i`
(`business_cards.count()`), `spinner i` tells whether the loading
spinner is visible there.  The bounded spinner waits only delay; they
never change the control state.  The loop state mirrors the Python
locals; `previousCount` starts at `-1`. -/

inductive StopReason where
  | staleResults
  | stableCount
  | scrollLimit
deriving DecidableEq

structure ScrollResult where
  iterations : Nat
  lastCount : Nat
  reason : StopReason
deriving DecidableEq

structure ScrollState where
  previousCount : Int
  sameCountRepeats : Nat
  consecutiveNoNew : Nat
  scrolls : Nat
deriving DecidableEq

/-- Constant `max_same_count = 8` in `_scroll_and_load`. -/
def maxSameCount : Nat := 8

/-- Constant `max_consecutive_no_new = 10` in `_scroll_and_load`. -/
def maxConsecutiveNoNew : Nat := 10

/-- The safety ceiling constant `100` of `if scrolls > 100: break`. -/
def maxScrolls : Nat := 100

/-- One-to-one embedding of the `while True:` body of `_scroll_and_load`:
count, stale bookkeeping, the two stale/stable exits, the scroll action
(`scrolls += 1`) and the post-increment safety exit `if scrolls > 100`.
`fuel` only bounds the recursion; `scrollLoop_isSome` shows it is never
exhausted from the real entry state. -/
def scrollLoopGo (counts : Nat → Nat) (spinner : Nat → Bool) :
    Nat → ScrollState → Option ScrollResult
  | 0, _ => none
  | fuel + 1, st =>
    let cur := counts st.scrolls
    let isLoading := spinner st.scrolls
    let stale := (cur : Int) = st.previousCount
    let consec := if stale then st.consecutiveNoNew + 1 else 0
    let same := if stale then st.sameCountRepeats + 1 else 0
    if maxConsecutiveNoNew ≤ consec then
      some ⟨st.scrolls + 1, cur, StopReason.staleResults⟩
    else if maxSameCount ≤ same ∧ isLoading = false then
      some ⟨st.scrolls + 1, cur, StopReason.stableCount⟩
    else if maxScrolls < st.scrolls + 1 then
      some ⟨st.scrolls + 1, cur, StopReason.scrollLimit⟩
    else
      scrollLoopGo counts spinner fuel ⟨(cur : Int), same, consec, st.scrolls + 1⟩

/-- Embedding of `_scroll_and_load`: run the loop from
`previous_count = -1, same_count_repeats = 0, consecutive_no_new_results = 0,
scrolls = 0`.  102 units of fuel are more than the body can ever consume. -/
def scrollAndLoad (counts : Nat → Nat) (spinner : Nat → Bool) : Option ScrollResult :=
  scrollLoopGo counts spinner 102 ⟨-1, 0, 0, 0⟩

/-- Unfolding of one loop body when the measured count equals the
previous one (a stale iteration). -/
lemma scrollLoopGo_succ_stale (counts : Nat → Nat) (spinner : Nat → Bool)
    (fuel : Nat) (st : ScrollState)
    (h : (counts st.scrolls : Int) = st.previousCount) :
    scrollLoopGo counts spinner (fuel + 1) st =
      if maxConsecutiveNoNew ≤ st.consecutiveNoNew + 1 then
        some ⟨st.scrolls + 1, counts st.scrolls, StopReason.staleResults⟩
      else if maxSameCount ≤ st.sameCountRepeats + 1 ∧ spinner st.scrolls = false then
        some ⟨st.scrolls + 1, counts st.scrolls, StopReason.stableCount⟩
      else if maxScrolls < st.scrolls + 1 then
        some ⟨st.scrolls + 1, counts st.scrolls, StopReason.scrollLimit⟩
      else
        scrollLoopGo counts spinner fuel
          ⟨st.previousCount, st.sameCountRepeats + 1, st.consecutiveNoNew + 1,
            st.scrolls + 1⟩ := by
  rw [scrollLoopGo]
  simp only [h, if_true, eq_self_iff_true]

/-- Unfolding of one loop body when the measured count differs from the
previous one: both stale counters reset, so only the safety ceiling can
stop the loop in this body. -/
lemma scrollLoopGo_succ_fresh (counts : Nat → Nat) (spinner : Nat → Bool)
    (fuel : Nat) (st : ScrollState)
    (h : ¬ ((counts st.scrolls : Int) = st.previousCount)) :
    scrollLoopGo counts spinner (fuel + 1) st =
      if maxScrolls < st.scrolls + 1 then
        some ⟨st.scrolls + 1, counts st.scrolls, StopReason.scrollLimit⟩
      else
        scrollLoopGo counts spinner fuel
          ⟨(counts st.scrolls : Int), 0, 0, st.scrolls + 1⟩ := by
  rw [scrollLoopGo]
  simp only [if_neg h, maxConsecutiveNoNew, maxSameCount]
  norm_num

/-- The loop body always exits once enough fuel remains for the ceiling
to fire: from a state that has scrolled `s ≤ 100` times, at most
`101 - s` further bodies run. -/
lemma scrollLoopGo_isSome (counts : Nat → Nat) (spinner : Nat → Bool) :
    ∀ (fuel : Nat) (st : ScrollState), maxScrolls + 1 ≤ st.scrolls + fuel →
      st.scrolls ≤ maxScrolls → (scrollLoopGo counts spinner fuel st).isSome := by
  intro fuel
  induction fuel with
  | zero =>
    intro st h1 h2
    simp only [maxScrolls] at h1 h2
    omega
  | succ n ih =>
    intro st h1 h2
    by_cases hstale : ((counts st.scrolls : Int) = st.previousCount)
    · rw [scrollLoopGo_succ_stale counts spinner n st hstale]
      split
      · simp
      · split
        · simp
        · split
          · simp
          · rename_i hceil
            refine ih ⟨st.previousCount, st.sameCountRepeats + 1,
              st.consecutiveNoNew + 1, st.scrolls + 1⟩ ?_ ?_ <;>
              dsimp only <;> simp only [maxScrolls] at * <;> omega
    · rw [scrollLoopGo_succ_fresh counts spinner n st hstale]
      split
      · simp
      · rename_i hceil
        refine ih ⟨(counts st.scrolls : Int), 0, 0, st.scrolls + 1⟩ ?_ ?_ <;>
          dsimp only <;> simp only [maxScrolls] at * <;> omega

/-- Any result reached from a state with `scrolls ≤ 100` stops within
iteration `101`. -/
lemma scrollLoopGo_iterations_le (counts : Nat → Nat) (spinner : Nat → Bool) :
    ∀ (fuel : Nat) (st : ScrollState) (r : ScrollResult),
      st.scrolls ≤ maxScrolls → scrollLoopGo counts spinner fuel st = some r →
      r.iterations ≤ maxScrolls + 1 := by
  intro fuel
  induction fuel with
  | zero => intro st r _ h; simp [scrollLoopGo] at h
  | succ n ih =>
    intro st r hs h
    by_cases hstale : ((counts st.scrolls : Int) = st.previousCount)
    · rw [scrollLoopGo_succ_stale counts spinner n st hstale] at h
      split at h
      · cases h; dsimp only; omega
      · split at h
        · cases h; dsimp only; omega
        · split at h
          · cases h; dsimp only; omega
          · rename_i hceil
            refine ih _ r ?_ h
            dsimp only; simp only [maxScrolls] at *; omega
    · rw [scrollLoopGo_succ_fresh counts spinner n st hstale] at h
      split at h
      · cases h; dsimp only; omega
      · rename_i hceil
        refine ih _ r ?_ h
        dsimp only; simp only [maxScrolls] at *; omega

/-- Counterexample to C1 as stated: on a page whose rendered count grows
by one on every scroll with the spinner always visible, the loop runs
for 101 scroll iterations — one more than the stated ceiling of 100 —
because the safety check `if scrolls > 100` is strict and runs after the
increment. -/
theorem scrollAndLoad_exceeds_ceiling_counterexample :
    (scrollAndLoad (fun i => i) (fun _ => true)).map ScrollResult.iterations =
      some 101 ∧ ¬ (101 ≤ 100) := by
  exact ⟨by decide, by omega⟩

/-- C1 as amended: `_scroll_and_load` terminates on every page behavior —
even when the rendered count strictly increases forever and the spinner
never clears — after at most `maxScrolls + 1 = 101` scroll iterations
(the post-increment strict check gives one iteration beyond the
ceiling constant 100). -/
theorem scrollAndLoad_terminates (counts : Nat → Nat) (spinner : Nat → Bool) :
    ∃ r : ScrollResult, scrollAndLoad counts spinner = some r ∧
      r.iterations ≤ maxScrolls + 1 := by
  have h1 : (scrollLoopGo counts spinner 102 ⟨-1, 0, 0, 0⟩).isSome :=
    scrollLoopGo_isSome counts spinner 102 ⟨-1, 0, 0, 0⟩ (by simp [maxScrolls])
      (by simp [maxScrolls])
  obtain ⟨r, hr⟩ := Option.isSome_iff_exists.mp h1
  exact ⟨r, hr, scrollLoopGo_iterations_le counts spinner 102 ⟨-1, 0, 0, 0⟩ r
    (by simp [maxScrolls]) hr⟩

/-- Run through the pre-stale phase: while the count still changes on
every iteration (bodies `s, …, k-1`), no exit condition can fire and the
loop just advances. -/
lemma scrollLoopGo_fresh_run (counts : Nat → Nat) (spinner : Nat → Bool) (k : Nat)
    (hchange : ∀ i, 1 ≤ i → i < k → counts i ≠ counts (i - 1))
    (hk91 : k ≤ 91) :
    ∀ (d fuel s : Nat), 1 ≤ s → s + d = k →
      scrollLoopGo counts spinner (fuel + d) ⟨(counts (s - 1) : Int), 0, 0, s⟩ =
        scrollLoopGo counts spinner fuel ⟨(counts (k - 1) : Int), 0, 0, k⟩ := by
  intro d
  induction d with
  | zero =>
    intro fuel s h1 h2
    have : s = k := by omega
    subst this
    rfl
  | succ d ih =>
    intro fuel s h1 h2
    have hlt : s < k := by omega
    have hne : ¬ ((counts s : Int) = (counts (s - 1) : Int)) := by
      exact_mod_cast fun h => hchange s h1 hlt (by exact_mod_cast h)
    have hstep := scrollLoopGo_succ_fresh counts spinner (fuel + d)
      ⟨(counts (s - 1) : Int), 0, 0, s⟩ hne
    rw [show fuel + (d + 1) = (fuel + d) + 1 from rfl, hstep]
    rw [if_neg (by dsimp only; simp only [maxScrolls]; omega)]
    have := ih fuel (s + 1) (by omega) (by omega)
    simpa using this

/-- Run through the stale phase with the spinner visible throughout: the
counters climb in lockstep and the primary no-new-results exit fires in
body `k + 9`, i.e. iteration `k + 10`. -/
lemma scrollLoopGo_stale_run (counts : Nat → Nat) (spinner : Nat → Bool) (k : Nat)
    (hstale : ∀ i, k ≤ i → counts i = counts (i - 1))
    (hsp : ∀ i, spinner i = true)
    (hk91 : k ≤ 91) :
    ∀ (fuel s : Nat), k ≤ s → s ≤ k + 9 → k + 10 ≤ s + fuel →
      scrollLoopGo counts spinner fuel ⟨(counts (s - 1) : Int), s - k, s - k, s⟩ =
        some ⟨k + 10, counts (k + 9), StopReason.staleResults⟩ := by
  intro fuel
  induction fuel with
  | zero => intro s h1 h2 h3; omega
  | succ n ih =>
    intro s h1 h2 h3
    have hst : ((counts s : Int) = (counts (s - 1) : Int)) := by
      exact_mod_cast hstale s h1
    rw [scrollLoopGo_succ_stale counts spinner n ⟨(counts (s - 1) : Int), s - k, s - k, s⟩
      (by dsimp only; exact hst)]
    dsimp only
    simp only [maxConsecutiveNoNew, maxSameCount, maxScrolls]
    by_cases hend : s = k + 9
    · subst hend
      have h9 : k + 9 + 1 = k + 10 := by omega
      rw [if_pos (by omega), h9]
    · rw [if_neg (by omega)]
      rw [if_neg (by simp [hsp s])]
      rw [if_neg (by omega)]
      have h4 : counts (s - 1) = counts s := (hstale s h1).symm
      have h5 : s - k + 1 = s + 1 - k := by omega
      rw [h4, h5]
      have := ih (s + 1) (by omega) (by omega) (by omega)
      simpa using this

/-- Run through the stale phase with arbitrary spinner behavior: one of
the two no-new-results exits fires no later than body `k + 9`, so the
loop stops within iteration `k + 10`. -/
lemma scrollLoopGo_stale_run_le (counts : Nat → Nat) (spinner : Nat → Bool) (k : Nat)
    (hstale : ∀ i, k ≤ i → counts i = counts (i - 1))
    (hk91 : k ≤ 91) :
    ∀ (fuel s : Nat), k ≤ s → s ≤ k + 9 → k + 10 ≤ s + fuel →
      ∃ r : ScrollResult,
        scrollLoopGo counts spinner fuel ⟨(counts (s - 1) : Int), s - k, s - k, s⟩ =
          some r ∧ r.iterations ≤ k + 10 := by
  intro fuel
  induction fuel with
  | zero => intro s h1 h2 h3; omega
  | succ n ih =>
    intro s h1 h2 h3
    have hst : ((counts s : Int) = (counts (s - 1) : Int)) := by
      exact_mod_cast hstale s h1
    rw [scrollLoopGo_succ_stale counts spinner n ⟨(counts (s - 1) : Int), s - k, s - k, s⟩
      (by dsimp only; exact hst)]
    dsimp only
    simp only [maxConsecutiveNoNew, maxSameCount, maxScrolls]
    by_cases h10 : 10 ≤ s - k + 1
    · rw [if_pos h10]
      exact ⟨_, rfl, by dsimp only; omega⟩
    · rw [if_neg h10]
      by_cases h8 : 8 ≤ s - k + 1 ∧ spinner s = false
      · rw [if_pos h8]
        exact ⟨_, rfl, by dsimp only; omega⟩
      · rw [if_neg h8]
        rw [if_neg (by omega)]
        have h4 : counts (s - 1) = counts s := (hstale s h1).symm
        have h5 : s - k + 1 = s + 1 - k := by omega
        rw [h4, h5]
        have := ih (s + 1) (by omega) (by omega) (by omega)
        simpa using this

/-- C2 as amended: on a page whose rendered count changes on every
iteration up to iteration `k` and never changes again, `_scroll_and_load`
stops no later than iteration `k + maxConsecutiveNoNew = k + 10`; it
stops at exactly `k + 10` via the primary no-new-results signal whenever
the loading spinner is visible on every iteration (which disables the
secondary stable-count exit); with the spinner absent the secondary exit
fires earlier, at iteration `k + maxSameCount = k + 8`.
`k ≤ 91` keeps the stale window inside the 101-iteration safety ceiling. -/
theorem scrollAndLoad_stale_termination (counts : Nat → Nat) (spinner : Nat → Bool)
    (k : Nat) (hk1 : 1 ≤ k) (hk91 : k ≤ 91)
    (hchange : ∀ i, 1 ≤ i → i < k → counts i ≠ counts (i - 1))
    (hstale : ∀ i, k ≤ i → counts i = counts (i - 1)) :
    (∃ r : ScrollResult, scrollAndLoad counts spinner = some r ∧
        r.iterations ≤ k + 10) ∧
    ((∀ i, spinner i = true) →
      scrollAndLoad counts spinner =
        some ⟨k + 10, counts (k + 9), StopReason.staleResults⟩) := by
  have hbody0 : ¬ ((counts 0 : Int) = (-1 : Int)) := by
    intro h
    have := Int.natCast_nonneg (counts 0)
    omega
  have e1 : scrollAndLoad counts spinner =
      scrollLoopGo counts spinner 101 ⟨(counts 0 : Int), 0, 0, 1⟩ := by
    unfold scrollAndLoad
    rw [show (102 : Nat) = 101 + 1 from rfl,
      scrollLoopGo_succ_fresh counts spinner 101 ⟨-1, 0, 0, 0⟩ (by dsimp only; exact hbody0)]
    rw [if_neg (by dsimp only; simp only [maxScrolls]; omega)]
  have e2 : scrollLoopGo counts spinner 101 ⟨(counts 0 : Int), 0, 0, 1⟩ =
      scrollLoopGo counts spinner (102 - k) ⟨(counts (k - 1) : Int), 0, 0, k⟩ := by
    have h := scrollLoopGo_fresh_run counts spinner k hchange hk91 (k - 1) (102 - k) 1
      le_rfl (by omega)
    rw [show (101 : Nat) = (102 - k) + (k - 1) from by omega]
    simpa using h
  have hpre : scrollAndLoad counts spinner =
      scrollLoopGo counts spinner (102 - k) ⟨(counts (k - 1) : Int), 0, 0, k⟩ :=
    e1.trans e2
  constructor
  · have := scrollLoopGo_stale_run_le counts spinner k hstale hk91 (102 - k) k
      le_rfl (by omega) (by omega)
    rw [Nat.sub_self] at this
    rw [hpre]
    exact this
  · intro hsp
    have := scrollLoopGo_stale_run counts spinner k hstale hsp hk91 (102 - k) k
      le_rfl (by omega) (by omega)
    rw [Nat.sub_self] at this
    rw [hpre]
    exact this

/-- Witness for C2's amended statement: a page that shows 0 items in the
first iteration and 1 item from the second iteration on (`k = 2`), with
the spinner always visible, stops at iteration `2 + 10 = 12` through the
primary stale-results signal. -/
theorem scrollAndLoad_stale_termination_witness :
    scrollAndLoad (fun i => if i = 0 then 0 else 1) (fun _ => true) =
      some ⟨12, 1, StopReason.staleResults⟩ := by
  have h := (scrollAndLoad_stale_termination (fun i => if i = 0 then 0 else 1)
    (fun _ => true) 2 (by omega) (by omega)
    (by
      intro i h1 h2
      have : i = 1 := by omega
      subst this
      decide)
    (by
      intro i hi
      have h1 : ¬ (i = 0) := by omega
      have h2 : ¬ (i - 1 = 0) := by omega
      simp [h1, h2])).2 (fun _ => rfl)
  simpa using h

/-- Counterexample to C2 as stated: on a page that renders 5 items from
the first iteration on (it stops producing new items after iteration
`k = 1`) with no loading spinner, the loop stops at iteration
`9 = k + 8` through the secondary stable-count exit, not at
`k + 10 = 11` as the claim requires. -/
theorem scrollAndLoad_stops_early_counterexample :
    scrollAndLoad (fun _ => 5) (fun _ => false) =
      some ⟨9, 5, StopReason.stableCount⟩ ∧ (9 : Nat) ≠ 1 + 10 := by
  exact ⟨by decide, by omega⟩

/-! ### Extraction loop (GoogleMapsScraper._extract_all_listings)

The per-index outcome of `_extract_listing_info` is abstracted as
`items : Nat → Option Item`; `none` models the `return None` path.
Python truthiness of the string fields is emptiness testing.  Each loop
body emits three progress-callback invocations: the leading
"Processing listing" call, the outcome call (which carries the item when
it is accepted), and the trailing "Processed n/m" call; the exception
handler that can skip the trailing calls is subsumed by the `none`
outcome. -/

structure Item where
  name : String
  phone : String
  website : String
  email : String
deriving DecidableEq

/-- Test `has_phone or has_website or has_email` in `_extract_all_listings`. -/
def hasContactChannel (d : Item) : Bool :=
  !(d.phone == "") || !(d.website == "") || !(d.email == "")

/-- One progress-callback invocation
`progress_callback(progress, total, successful, message, new_lead)`;
`lead` is the optional `new_lead` argument. -/
structure ProgressEvent where
  progress : Nat
  total : Nat
  successful : Nat
  msg : String
  lead : Option Item
deriving DecidableEq

/-- One body of the `for index in range(total_listings)` loop: the
accepted results it appends, the callback invocations it issues, and the
updated `successful_extractions` counter. -/
def extractStep (total index successful : Nat) (res : Option Item) :
    List Item × List ProgressEvent × Nat :=
  let processing : ProgressEvent :=
    ⟨index + 1, total, successful, "Processing listing", none⟩
  match res with
  | some d =>
    if d.name ≠ "" then
      if hasContactChannel d then
        ([d],
         [processing,
          ⟨index + 1, total, successful + 1, "Found lead: " ++ d.name, some d⟩,
          ⟨index + 1, total, successful + 1, "Processed listings", none⟩],
         successful + 1)
      else
        ([],
         [processing,
          ⟨index + 1, total, successful, "No target data for: " ++ d.name, none⟩,
          ⟨index + 1, total, successful, "Processed listings", none⟩],
         successful)
    else
      ([],
       [processing,
        ⟨index + 1, total, successful, "Failed to extract details", none⟩,
        ⟨index + 1, total, successful, "Processed listings", none⟩],
       successful)
  | none =>
    ([],
     [processing,
      ⟨index + 1, total, successful, "Failed to extract details", none⟩,
      ⟨index + 1, total, successful, "Processed listings", none⟩],
     successful)

/-- The extraction loop from `index` with `remaining` indices left. -/
def extractLoopGo (items : Nat → Option Item) (total : Nat) :
    Nat → Nat → Nat → List Item × List ProgressEvent
  | _, _, 0 => ([], [])
  | index, successful, remaining + 1 =>
    let step := extractStep total index successful (items index)
    let rest := extractLoopGo items total (index + 1) step.2.2 remaining
    (step.1 ++ rest.1, step.2.1 ++ rest.2)

/-- Embedding of `GoogleMapsScraper._extract_all_listings`: iterate over all
`total` listings, returning the accepted results and the full stream of
progress-callback invocations. -/
def extractAllListings (items : Nat → Option Item) (total : Nat) :
    List Item × List ProgressEvent :=
  extractLoopGo items total 0 0 total

/-- The progress values emitted by the scroll loop: `_scroll_and_load`
invokes the callback as `progress_callback(0, current_count, 0, …)` in
every body (the spinner messages repeat the same triple). -/
def scrollEvents (counts : Nat → Nat) (spinner : Nat → Bool) : List ProgressEvent :=
  match scrollAndLoad counts spinner with
  | none => []
  | some r =>
    (List.range r.iterations).map
      (fun i => ⟨0, counts i, 0, "Scroll: found listings", none⟩)

/-! ### Job registry and progress updates (src/server.py) -/

inductive JobStatus where
  | pending
  | running
  | cancelled
  | completed
  | failed
deriving DecidableEq

/-- The in-memory `active_jobs[job_id]` record (the fields the claims
are about; the timing fields are guarded by the same cancellation check
as the rest). -/
structure JobRecord where
  status : JobStatus
  progress : Nat
  totalListings : Nat
  successfulExtractions : Nat
  message : String
deriving DecidableEq

/-- Embedding of `update_progress_with_lead`: mutate nothing when the job has been
cancelled; otherwise copy the callback values into the record, append
the timing suffix to the message, and save the new lead (when present)
to persistence, modelled as appending to `saved`. -/
def updateProgressWithLead (j : JobRecord) (saved : List Item)
    (e : ProgressEvent) (timing : String) : JobRecord × List Item :=
  if j.status = JobStatus.cancelled then (j, saved)
  else
    ({ j with
        progress := e.progress
        totalListings := e.total
        successfulExtractions := e.successful
        message := e.msg ++ timing },
     match e.lead with
     | some d => saved ++ [d]
     | none => saved)

/-- The in-memory effect of the `POST /api/scraping/cancel/{job_id}`
handler on an active job: it sets status and message unconditionally,
without checking the current status. -/
def cancelScrapingJob (j : JobRecord) : JobRecord :=
  { j with status := JobStatus.cancelled, message := "Job cancelled by user" }

/-- The tail of `run_scraping_job`: re-check cancellation, then mark the
job completed. -/
def finalizeJob (j : JobRecord) (resultCount : Nat) : JobRecord :=
  if j.status = JobStatus.cancelled then j
  else { j with
          status := JobStatus.completed
          message := "Completed! Found " ++ toString resultCount ++ " leads" }

/-- The `except` handler of `run_scraping_job`: it marks the job failed
unconditionally. -/
def failJob (j : JobRecord) (err : String) : JobRecord :=
  { j with status := JobStatus.failed, message := "Error: " ++ err }

/-- The extraction phase as the server sees it: the scraper loop runs
(it never consults the job record), and each callback invocation flows
through `update_progress_with_lead`.  Returns the final job record, the
persisted leads, and the number of listings the loop processed. -/
def runExtractionPhase (j : JobRecord) (items : Nat → Option Item)
    (total : Nat) (timing : String) : JobRecord × List Item × Nat :=
  let run := extractAllListings items total
  let final := run.2.foldl
    (fun p e => updateProgressWithLead p.1 p.2 e timing) (j, [])
  (final.1, final.2, run.1.length)

/-- Shape of the three callback invocations of one loop body: they
report this body's 1-based index against the fixed total, and only an
accepted item — non-empty name and some contact channel — rides along as
`new_lead`. -/
lemma extractStep_events_mem (total index successful : Nat) (res : Option Item)
    (e : ProgressEvent) (he : e ∈ (extractStep total index successful res).2.1) :
    e.total = total ∧ e.progress = index + 1 ∧
      (∀ d, e.lead = some d → d.name ≠ "" ∧ hasContactChannel d = true) := by
  rcases res with _ | d
  · simp [extractStep] at he
    rcases he with rfl | rfl | rfl <;> simp
  · by_cases hname : d.name = ""
    · simp [extractStep, hname] at he
      rcases he with rfl | rfl | rfl <;> simp
    · by_cases hcontact : hasContactChannel d = true
      · simp [extractStep, hname, hcontact] at he
        rcases he with rfl | rfl | rfl
        · simp
        · refine ⟨rfl, rfl, ?_⟩
          intro d' hd'
          simp only [Option.some.injEq] at hd'
          subst hd'
          exact ⟨hname, hcontact⟩
        · simp
      · simp [extractStep, hname, hcontact] at he
        rcases he with rfl | rfl | rfl <;> simp


/-- Every callback invocation of the extraction loop reports a 1-based
index inside the range being processed against the fixed total, and any
attached lead has a non-empty name and a contact channel. -/
lemma extractLoopGo_events (items : Nat → Option Item) (total : Nat) :
    ∀ (remaining index successful : Nat) (e : ProgressEvent),
      e ∈ (extractLoopGo items total index successful remaining).2 →
      e.total = total ∧ index < e.progress ∧ e.progress ≤ index + remaining ∧
        (∀ d, e.lead = some d → d.name ≠ "" ∧ hasContactChannel d = true) := by
  intro remaining
  induction remaining with
  | zero =>
    intro index successful e he
    simp [extractLoopGo] at he
  | succ rem ih =>
    intro index successful e he
    rw [extractLoopGo] at he
    simp only [List.mem_append] at he
    rcases he with he | he
    · obtain ⟨h1, h2, h3⟩ := extractStep_events_mem total index successful (items index) e he
      exact ⟨h1, by omega, by omega, h3⟩
    · obtain ⟨h1, h2, h3, h4⟩ := ih (index + 1) _ e he
      exact ⟨h1, by omega, by omega, h4⟩

/-- Every item the extraction loop accepts into `results` has a
non-empty name and a contact channel. -/
lemma extractLoopGo_results (items : Nat → Option Item) (total : Nat) :
    ∀ (remaining index successful : Nat) (d : Item),
      d ∈ (extractLoopGo items total index successful remaining).1 →
      d.name ≠ "" ∧ hasContactChannel d = true := by
  intro remaining
  induction remaining with
  | zero =>
    intro index successful d hd
    simp [extractLoopGo] at hd
  | succ rem ih =>
    intro index successful d hd
    rw [extractLoopGo] at hd
    simp only [List.mem_append] at hd
    rcases hd with hd | hd
    · rcases hres : items index with _ | d'
      · simp [extractStep, hres] at hd
      · by_cases hname : d'.name = ""
        · simp [extractStep, hres, hname] at hd
        · by_cases hcontact : hasContactChannel d' = true
          · simp [extractStep, hres, hname, hcontact] at hd
            subst hd
            exact ⟨hname, hcontact⟩
          · simp [extractStep, hres, hname, hcontact] at hd
    · exact ih (index + 1) _ d hd

/-- An in-range item with a non-empty name and a contact channel is
accepted into `results` and forwarded through the callback as a lead. -/
lemma extractLoopGo_forwards (items : Nat → Option Item) (total : Nat) :
    ∀ (remaining index successful i : Nat) (d : Item),
      i < remaining → items (index + i) = some d →
      d.name ≠ "" → hasContactChannel d = true →
      d ∈ (extractLoopGo items total index successful remaining).1 ∧
        ∃ e ∈ (extractLoopGo items total index successful remaining).2,
          e.lead = some d := by
  intro remaining
  induction remaining with
  | zero => intro index successful i d hi; omega
  | succ rem ih =>
    intro index successful i d hi hitem hname hcontact
    rw [extractLoopGo]
    simp only [List.mem_append]
    rcases i with _ | j
    · simp only [Nat.add_zero] at hitem
      constructor
      · left
        simp [extractStep, hitem, hname, hcontact]
      · refine ⟨⟨index + 1, total, successful + 1, "Found lead: " ++ d.name, some d⟩,
          Or.inl ?_, rfl⟩
        simp [extractStep, hitem, hname, hcontact]
    · have hitem' : items ((index + 1) + j) = some d := by
        rw [show (index + 1) + j = index + (j + 1) from by omega]
        exact hitem
      obtain ⟨hres, e, hemem, helead⟩ :=
        ih (index + 1) ((extractStep total index successful (items index)).2.2) j d
          (by omega) hitem' hname hcontact
      exact ⟨Or.inr hres, e, Or.inr hemem, helead⟩

/-- The leading "Processing listing" invocation is issued for every
in-range index, whatever the extraction outcome. -/
lemma extractLoopGo_processing_event (items : Nat → Option Item) (total : Nat) :
    ∀ (remaining index successful i : Nat), i < remaining →
      ∃ s, (⟨index + i + 1, total, s, "Processing listing", none⟩ : ProgressEvent) ∈
        (extractLoopGo items total index successful remaining).2 := by
  intro remaining
  induction remaining with
  | zero => intro index successful i hi; omega
  | succ rem ih =>
    intro index successful i hi
    rw [extractLoopGo]
    rcases i with _ | j
    · refine ⟨successful, ?_⟩
      simp only [List.mem_append]
      left
      rcases hres : items index with _ | d
      · simp [extractStep, hres]
      · by_cases hname : d.name = ""
        · simp [extractStep, hres, hname]
        · by_cases hcontact : hasContactChannel d = true
          · simp [extractStep, hres, hname, hcontact]
          · simp [extractStep, hres, hname, hcontact]
    · obtain ⟨s, hs⟩ := ih (index + 1)
        ((extractStep total index successful (items index)).2.2) j (by omega)
      refine ⟨s, ?_⟩
      simp only [List.mem_append]
      right
      rw [show index + (j + 1) + 1 = (index + 1) + j + 1 from by omega]
      exact hs

/-- Each loop body issues exactly three callback invocations. -/
lemma extractStep_events_length (total index successful : Nat) (res : Option Item) :
    (extractStep total index successful res).2.1.length = 3 := by
  rcases res with _ | d
  · rfl
  · by_cases hname : d.name = ""
    · simp [extractStep, hname]
    · by_cases hcontact : hasContactChannel d = true
      · simp [extractStep, hname, hcontact]
      · simp [extractStep, hname, hcontact]

/-- The extraction loop issues three callback invocations per listing. -/
lemma extractLoopGo_events_length (items : Nat → Option Item) (total : Nat) :
    ∀ (remaining index successful : Nat),
      (extractLoopGo items total index successful remaining).2.length =
        3 * remaining := by
  intro remaining
  induction remaining with
  | zero => intro index successful; rfl
  | succ rem ih =>
    intro index successful
    rw [extractLoopGo]
    simp only [List.length_append, extractStep_events_length, ih]
    omega

/-- Folding progress updates over a cancelled job record changes
nothing: the cancellation check at the top of
`update_progress_with_lead` short-circuits every call. -/
lemma foldl_update_cancelled (timing : String) :
    ∀ (events : List ProgressEvent) (j : JobRecord) (saved : List Item),
      j.status = JobStatus.cancelled →
      events.foldl (fun p e => updateProgressWithLead p.1 p.2 e timing)
        (j, saved) = (j, saved) := by
  intro events
  induction events with
  | nil => intro j saved _; rfl
  | cons e es ih =>
    intro j saved hc
    rw [List.foldl_cons]
    have h1 : updateProgressWithLead j saved e timing = (j, saved) := by
      simp [updateProgressWithLead, hc]
    rw [h1]
    exact ih j saved hc

/-- The boolean contact-channel test unfolded to field emptiness. -/
lemma hasContactChannel_iff (d : Item) :
    hasContactChannel d = true ↔
      (d.phone ≠ "" ∨ d.website ≠ "" ∨ d.email ≠ "") := by
  simp [hasContactChannel, or_assoc]

/-- Counterexample to C5 as stated: a discovered item whose only
non-empty field is `website` has an empty name, so the gate
`if business_details and business_details.get("name")` in
`_extract_all_listings` drops it — it is neither accepted into the
results nor forwarded to the callback as a lead. -/
theorem websiteOnly_item_dropped_counterexample :
    (extractAllListings (fun _ => some ⟨"", "", "http://example.com", ""⟩) 1).1
        = [] ∧
    ∀ e ∈ (extractAllListings (fun _ => some ⟨"", "", "http://example.com", ""⟩) 1).2,
      e.lead = none := by
  exact ⟨by decide, by decide⟩

/-- C5 as amended: an item with all four fields empty is never forwarded
to persistence (every forwarded lead has a non-empty name and a contact
channel), and an item whose name is non-empty and whose only non-empty
contact field is `website` is accepted and forwarded. -/
theorem extraction_forwarding_policy (items : Nat → Option Item) (total : Nat) :
    (∀ e ∈ (extractAllListings items total).2, ∀ d, e.lead = some d →
        d.name ≠ "" ∧ (d.phone ≠ "" ∨ d.website ≠ "" ∨ d.email ≠ "")) ∧
    (∀ i d, i < total → items i = some d → d.name ≠ "" →
        d.phone = "" → d.email = "" → d.website ≠ "" →
        d ∈ (extractAllListings items total).1 ∧
          ∃ e ∈ (extractAllListings items total).2, e.lead = some d) := by
  constructor
  · intro e he d hd
    obtain ⟨-, -, -, h4⟩ := extractLoopGo_events items total total 0 0 e he
    obtain ⟨hn, hc⟩ := h4 d hd
    exact ⟨hn, (hasContactChannel_iff d).mp hc⟩
  · intro i d hi hitem hname hphone hemail hweb
    have hc : hasContactChannel d = true :=
      (hasContactChannel_iff d).mpr (Or.inr (Or.inl hweb))
    have h := extractLoopGo_forwards items total total 0 0 i d hi
      (by simpa using hitem) hname hc
    exact h

/-- Witness for C5's amended statement: `⟨"Acme", "", "http://a", ""⟩` at
index 0 of a single-listing page is accepted and forwarded. -/
theorem extraction_forwarding_policy_witness :
    (⟨"Acme", "", "http://a", ""⟩ : Item) ∈
      (extractAllListings (fun _ => some ⟨"Acme", "", "http://a", ""⟩) 1).1 ∧
    ∃ e ∈ (extractAllListings (fun _ => some ⟨"Acme", "", "http://a", ""⟩) 1).2,
      e.lead = some ⟨"Acme", "", "http://a", ""⟩ := by
  exact (extraction_forwarding_policy (fun _ => some ⟨"Acme", "", "http://a", ""⟩) 1).2
    0 ⟨"Acme", "", "http://a", ""⟩ (by omega) rfl (by decide) rfl rfl (by decide)

/-- C10: an item is forwarded as a lead only when its extracted name is
non-empty — every lead attached to a callback invocation and every
accepted result has a non-empty name — while every in-range listing,
including those with an empty name, is still counted as processed by the
leading callback invocation of its loop body. -/
theorem emptyName_never_forwarded (items : Nat → Option Item) (total : Nat) :
    (∀ e ∈ (extractAllListings items total).2, ∀ d, e.lead = some d →
        d.name ≠ "") ∧
    (∀ d ∈ (extractAllListings items total).1, d.name ≠ "") ∧
    (∀ i, i < total →
        ∃ s, (⟨i + 1, total, s, "Processing listing", none⟩ : ProgressEvent) ∈
          (extractAllListings items total).2) := by
  refine ⟨?_, ?_, ?_⟩
  · intro e he d hd
    exact ((extractLoopGo_events items total total 0 0 e he).2.2.2 d hd).1
  · intro d hd
    exact (extractLoopGo_results items total total 0 0 d hd).1
  · intro i hi
    have h := extractLoopGo_processing_event items total total 0 0 i hi
    simpa using h

/-- Witness for C10: an item with a phone number but empty name is
counted as processed (the body's leading callback is issued) yet the
accepted results of the run stay empty. -/
theorem emptyName_never_forwarded_witness :
    ∃ s, (⟨1, 1, s, "Processing listing", none⟩ : ProgressEvent) ∈
      (extractAllListings (fun _ => some ⟨"", "5551234567", "", ""⟩) 1).2 := by
  exact (emptyName_never_forwarded (fun _ => some ⟨"", "5551234567", "", ""⟩) 1).2.2
    0 (by omega)

/-- Counterexample to C6 as stated: with the job already cancelled, the
extraction loop still processes all three listings (three accepted
extractions, not at most one); only the progress updates and lead saves
are suppressed. -/
theorem cancelled_job_loop_continues_counterexample :
    runExtractionPhase ⟨JobStatus.cancelled, 0, 0, 0, "Job cancelled by user"⟩
        (fun _ => some ⟨"Biz", "5551234567", "", ""⟩) 3 "" =
      (⟨JobStatus.cancelled, 0, 0, 0, "Job cancelled by user"⟩, [], 3) ∧
    ¬ ((3 : Nat) ≤ 1) := by
  exact ⟨by decide, by omega⟩

/-- C6 as amended: neither the scroll loop nor the per-item extraction
loop of the scraper consults the cancellation flag; after cancellation
the loop still runs through every listing (three callback invocations
per listing).  Cancellation is observed only inside
`update_progress_with_lead`, which then leaves the job record untouched
and persists nothing, so cancellation latency is bounded by the whole
remaining scrape, not by one iteration. -/
theorem cancellation_observed_only_in_updater (j : JobRecord)
    (items : Nat → Option Item) (total : Nat) (timing : String)
    (hc : j.status = JobStatus.cancelled) :
    runExtractionPhase j items total timing =
      (j, [], (extractAllListings items total).1.length) ∧
    (extractAllListings items total).2.length = 3 * total := by
  constructor
  · unfold runExtractionPhase
    simp only []
    rw [foldl_update_cancelled timing _ j [] hc]
  · exact extractLoopGo_events_length items total total 0 0

/-- Witness for C6's amended statement: a cancelled job over a
two-listing page whose extractions both fail — the record and the saved
leads are untouched while the loop still issues six callback
invocations. -/
theorem cancellation_observed_only_in_updater_witness :
    runExtractionPhase ⟨JobStatus.cancelled, 0, 0, 0, ""⟩ (fun _ => none) 2 "" =
      (⟨JobStatus.cancelled, 0, 0, 0, ""⟩, [], 0) ∧
    (extractAllListings (fun _ => (none : Option Item)) 2).2.length = 3 * 2 := by
  have h := cancellation_observed_only_in_updater ⟨JobStatus.cancelled, 0, 0, 0, ""⟩
    (fun _ => none) 2 "" rfl
  refine ⟨?_, h.2⟩
  have hz : (extractAllListings (fun _ => (none : Option Item)) 2).1.length = 0 := by
    decide
  rw [h.1, hz]

/-- Counterexample to C7 as stated: terminal states are not absorbing —
the cancel endpoint overwrites even a completed job's status and message
unconditionally. -/
theorem completed_job_overwritten_counterexample :
    (⟨JobStatus.completed, 3, 3, 2, "Completed! Found 2 leads"⟩ : JobRecord).status
        = JobStatus.completed ∧
    (cancelScrapingJob
        ⟨JobStatus.completed, 3, 3, 2, "Completed! Found 2 leads"⟩).status
        = JobStatus.cancelled ∧
    JobStatus.cancelled ≠ JobStatus.completed := by
  exact ⟨rfl, rfl, by decide⟩

/-- C7 as amended: `cancelled` is absorbing with respect to the progress
updater and the completion finalizer — once a job is cancelled,
`update_progress_with_lead` mutates neither the record nor the persisted
leads and the completion path of `run_scraping_job` leaves the status
`cancelled` — but terminal states are not absorbing against every
component: a cancel request overwrites `completed`/`failed`, and the
failure handler overwrites any status, including `cancelled`, with
`failed`. -/
theorem cancelled_absorbing_for_engine (j : JobRecord)
    (hc : j.status = JobStatus.cancelled) :
    (∀ (saved : List Item) (e : ProgressEvent) (timing : String),
        updateProgressWithLead j saved e timing = (j, saved)) ∧
    (∀ n : Nat, finalizeJob j n = j) := by
  constructor
  · intro saved e timing
    simp [updateProgressWithLead, hc]
  · intro n
    simp [finalizeJob, hc]

/-- Witness for C7's amended statement at a concrete cancelled record. -/
theorem cancelled_absorbing_for_engine_witness :
    updateProgressWithLead ⟨JobStatus.cancelled, 1, 2, 1, "Job cancelled by user"⟩
        [] ⟨2, 2, 1, "Processing listing", none⟩ " (Total: 3.0s)" =
      (⟨JobStatus.cancelled, 1, 2, 1, "Job cancelled by user"⟩, []) ∧
    finalizeJob ⟨JobStatus.cancelled, 1, 2, 1, "Job cancelled by user"⟩ 5 =
      ⟨JobStatus.cancelled, 1, 2, 1, "Job cancelled by user"⟩ := by
  exact ⟨(cancelled_absorbing_for_engine _ rfl).1 [] ⟨2, 2, 1, "Processing listing", none⟩
    " (Total: 3.0s)", (cancelled_absorbing_for_engine _ rfl).2 5⟩

/-- C8: every callback invocation the scraper issues — in the extraction
loop and in the scroll loop — carries `progress ≤ total`, and
`update_progress_with_lead` keeps `itemsProcessed ≤ itemsDiscovered` in
the job record after every update. -/
theorem progress_le_total_invariant :
    (∀ (items : Nat → Option Item) (total : Nat),
        ∀ e ∈ (extractAllListings items total).2, e.progress ≤ e.total) ∧
    (∀ (counts : Nat → Nat) (spinner : Nat → Bool),
        ∀ e ∈ scrollEvents counts spinner, e.progress ≤ e.total) ∧
    (∀ (j : JobRecord) (saved : List Item) (e : ProgressEvent) (timing : String),
        j.progress ≤ j.totalListings → e.progress ≤ e.total →
        (updateProgressWithLead j saved e timing).1.progress ≤
          (updateProgressWithLead j saved e timing).1.totalListings) := by
  refine ⟨?_, ?_, ?_⟩
  · intro items total e he
    obtain ⟨h1, -, h3, -⟩ := extractLoopGo_events items total total 0 0 e he
    omega
  · intro counts spinner e he
    rcases hr : scrollAndLoad counts spinner with _ | r
    · simp [scrollEvents, hr] at he
    · simp only [scrollEvents, hr, List.mem_map, List.mem_range] at he
      obtain ⟨i, -, rfl⟩ := he
      exact Nat.zero_le _
  · intro j saved e timing hj he
    unfold updateProgressWithLead
    by_cases hc : j.status = JobStatus.cancelled
    · simp [hc]
      exact hj
    · simp [hc]
      exact he

/-- Witness for C8 at a concrete running record and callback values. -/
theorem progress_le_total_invariant_witness :
    (updateProgressWithLead ⟨JobStatus.running, 0, 0, 0, "Starting scraping job..."⟩
        [] ⟨1, 2, 1, "Processing listing", none⟩ "").1.progress ≤
      (updateProgressWithLead ⟨JobStatus.running, 0, 0, 0, "Starting scraping job..."⟩
        [] ⟨1, 2, 1, "Processing listing", none⟩ "").1.totalListings := by
  exact progress_le_total_invariant.2.2 ⟨JobStatus.running, 0, 0, 0,
    "Starting scraping job..."⟩ [] ⟨1, 2, 1, "Processing listing", none⟩ ""
    (by decide) (by decide)

/-! ### Proxy rotation (src/src/utils/proxy_rotation.py)

`_load_proxies` is modelled over the fetched source payloads (one
optional list of already-stripped lines per source, `none` for a failed
download); `random.sample` and `test_proxy` become the explicit `sample`
and `probe` parameters. -/

/-- Python's `str.split(c)` on the character list of a string. -/
def splitOnChar (c : Char) : List Char → List (List Char)
  | [] => [[]]
  | a :: rest =>
    let r := splitOnChar c rest
    if a = c then [] :: r
    else
      match r with
      | [] => [[a]]
      | h :: t => (a :: h) :: t

/-- The per-line validity filter of `_load_proxies`:
`':' in proxy and len(proxy.split(':')) == 2 and port.isdigit()`
(so: exactly one colon, and a non-empty all-digit port). -/
def isValidProxyLine (s : String) : Bool :=
  match splitOnChar ':' s.data with
  | [_, port] => !(port.isEmpty) && port.all Char.isDigit
  | _ => false

/-- Embedding of `ProxyRotator._load_proxies`: concatenate the lines of the sources
that answered, keep the host:port lines, and prefix the scheme.  Any
download failure only shrinks the list; the outer handler would reset
it to `[]`. -/
def loadProxies (fetched : List (Option (List String))) : List String :=
  ((fetched.filterMap id).flatten.filter isValidProxyLine).map
    (fun p => "http://" ++ p)

/-- The `ProxyRotator` fields set in `__init__`: `self.proxies`,
`self.last_update = 0` and `self.update_interval = 3600`.  The latter
two are written once and never read anywhere in the class. -/
structure RotatorState where
  proxies : List String
  lastUpdate : ℚ
  updateInterval : ℚ
deriving DecidableEq

/-- Embedding of `ProxyRotator.get_working_proxy`: reload only when the cached list
is empty (`if not self.proxies`), sample candidates, and return the
first that passes the probe — `none` when none does.  No code path
consults `last_update` or `update_interval`, so no clock argument even
appears. -/
def getWorkingProxy (st : RotatorState) (fetched : List (Option (List String)))
    (sample : List String → List String) (probe : String → Bool) :
    Option String × RotatorState :=
  let st1 := if st.proxies = [] then { st with proxies := loadProxies fetched }
             else st
  ((sample st1.proxies).find? probe, st1)

/-- C9 at the failing input (the spec's time-gate is the code's intent —
`update_interval = 3600  # Update every hour` — but no code reads it):
a rotator holding one stale cached proxy, last refreshed at time 0 and
queried 10000 s later (well past the hour), performs no re-download even
though fresh source data with a different proxy is available, and with
all probes failing it degrades to `none` without an error. -/
theorem proxy_refresh_not_time_gated :
    (10000 : ℚ) - (⟨["http://1.2.3.4:80"], 0, 3600⟩ : RotatorState).lastUpdate >
      (⟨["http://1.2.3.4:80"], 0, 3600⟩ : RotatorState).updateInterval ∧
    loadProxies [some ["5.6.7.8:8080"]] = ["http://5.6.7.8:8080"] ∧
    getWorkingProxy ⟨["http://1.2.3.4:80"], 0, 3600⟩ [some ["5.6.7.8:8080"]]
        (fun l => l.take 10) (fun _ => false) =
      (none, ⟨["http://1.2.3.4:80"], 0, 3600⟩) := by
  refine ⟨by norm_num, by decide, by decide⟩

end PitchPerfect
